import Mathlib

/-!
# GPT Journal — verification of the hierarchical compaction engine

Shallow embedding of the core of `src/App.tsx` (chat assembly, completion
orchestration, compaction selection and compaction) and `src/db.ts`
(the IndexedDB-backed timeline store, import/export).

Modelling conventions:
* JavaScript `Date` values are epoch milliseconds, modelled as `Int`.
* Token counts are `Nat` (the spec requires non-negative integers).
* Levels are `Int` (`0` for a Message, the stored `level` for a Summary).
* The IndexedDB object stores (external collaborator, keyed by `id`) are
  modelled as lists of records where `put` replaces the record with the
  same key or appends; a transaction is all-or-nothing, modelled by an
  explicit success flag.
* Network providers (completion, embedding) are fallible functions kept
  abstract in an `Env` record; `uuidv4()` results are `Env` fields.
-/

/-- `DBMessage` record from `src/db.ts` (field `summaryId` uses the literal
string sentinel `"NULL"` for "no parent", exactly as the source does). -/
structure DBMessage where
  id : String
  createdAt : Int
  userContent : String
  assistantContent : String
  tokensCount : Nat
  summaryId : String
deriving DecidableEq, Repr

/-- `DBSummary` record from `src/db.ts` (sentinel `"NULL"` in `parentId`). -/
structure DBSummary where
  id : String
  dateFrom : Int
  dateTo : Int
  content : String
  level : Int
  tokensCount : Nat
  parentId : String
deriving DecidableEq, Repr

/-- `ChatItem = ChatMessage | ChatSummary` from `src/ai.ts`: the tagged union
over the two record kinds.  The TS `timestamp` field is derived
(`createdAt` for a message, `dateTo` for a summary), so we expose it as a
function instead of duplicating the data. -/
inductive ChatItem where
  | message (m : DBMessage)
  | summary (s : DBSummary)
deriving DecidableEq, Repr

/-- The ordering timestamp: `message.createdAt` / `summary.dateTo`,
as assigned in `getChat` and in the constructors of both item kinds. -/
def ChatItem.timestamp : ChatItem → Int
  | .message m => m.createdAt
  | .summary s => s.dateTo

/-- The level used by the Selector: `0` for a message, the stored `level`
for a summary (`selectMessagesForSummary`, `currentLevel`). -/
def ChatItem.itemLevel : ChatItem → Int
  | .message _ => 0
  | .summary s => s.level

/-- The token cost used by the Selector (`currentTokens`). -/
def ChatItem.itemTokens : ChatItem → Nat
  | .message m => m.tokensCount
  | .summary s => s.tokensCount

/-- The timestamp at which an item starts: `createdAt` for a message,
`dateFrom` for a summary — the value `compressMessages` folds into the
new summary's `dateFrom`. -/
def ChatItem.startTimestamp : ChatItem → Int
  | .message m => m.createdAt
  | .summary s => s.dateFrom

/-- `const MIN_SUMMARY_TOKENS = 4000` from `src/ai.ts`. -/
def MIN_SUMMARY_TOKENS : Nat := 4000

/-- The loop body of `selectMessagesForSummary` from `src/ai.ts`.
State: current `index`, `startIndex : number | null`,
`level : number | null`, running `tokens`.  The `break` that sets
`endIndex` is modelled by returning `some (startIndex, endIndex)`;
falling off the end of the array returns `none`. -/
def selectScan : List ChatItem → Nat → Option Nat → Option Int → Nat →
    Option (Nat × Nat)
  | [], _, _, _, _ => none
  | item :: rest, index, startIndex, level, tokens =>
    let currentLevel := item.itemLevel
    let currentTokens := item.itemTokens
    let st :=
      if some currentLevel = level then
        (startIndex, level, tokens + currentTokens)
      else
        (some index, some currentLevel, currentTokens)
    match st.1 with
    | some s =>
      if st.2.2 ≥ MIN_SUMMARY_TOKENS * 2 then
        some (s, s + (index - s + 1 + 1) / 2)
      else
        selectScan rest (index + 1) st.1 st.2.1 st.2.2
    | none => selectScan rest (index + 1) st.1 st.2.1 st.2.2

/-- `selectMessagesForSummary` from `src/ai.ts`: scan for the first
same-level run whose running token total reaches `MIN_SUMMARY_TOKENS * 2`,
then return `chat.slice(startIndex, endIndex)` with
`endIndex = startIndex + ceil(fullCount / 2)`; otherwise `[]`.
(`Math.ceil (n / 2)` for natural `n` is `(n + 1) / 2`.) -/
def selectMessagesForSummary (chat : List ChatItem) : List ChatItem :=
  match selectScan chat 0 none none 0 with
  | some (s, e) => (chat.drop s).take (e - s)
  | none => []

/-- One entry of the provider transcript (`OpenAIMessage` in `src/ai.ts`);
`role` is kept as a string. -/
structure OpenAIMessage where
  role : String
  name : Option String
  content : String
deriving DecidableEq, Repr

/-- `ChatCompletionRequest` from `src/ai.ts`.  The TS `temperature` is a
float literal (`1` / `0.0`); only those two values occur, so `Nat`. -/
structure ChatCompletionRequest where
  model : String
  messages : List OpenAIMessage
  temperature : Nat
deriving DecidableEq, Repr

/-- Environment of external collaborators threaded through the core:
the completion provider (collapsed to its first choice's content, or a
failure), the embedding/cost provider (collapsed to `usage.total_tokens`),
the two `uuidv4()` draws, the `date-fns` timestamp renderer, and the
success of the two IndexedDB write transactions (message append,
compaction write) — the store's transaction is all-or-nothing, an
assumption placed on the collaborator by the design. -/
structure Env where
  complete : ChatCompletionRequest → Except String String
  embedTokens : String → Except String Nat
  msgId : String
  sumId : String
  fmtTimestamp : Int → String
  msgTxOk : Bool
  compactTxOk : Bool

/-- `CHAT_SYSTEM_PROPMT` from `src/ai.ts` (source spelling kept). -/
def CHAT_SYSTEM_PROPMT : String :=
  "You are ChatGPT, a supportive and empathetic assistant helping the user to maintain a personal journal. Your role is to encourage self-reflection, provide constructive feedback, and prompt the user with questions that deepen their understanding of their thoughts and emotions. Ensure confidentiality and create a safe, non-judgmental space for expression. Guide the user towards clarity and personal growth by suggesting insights and encouraging positive, actionable steps."

/-- `COMPRESS_SYSTEM_MESSAGE` from `src/ai.ts` (after `.trim()`). -/
def COMPRESS_SYSTEM_MESSAGE : String :=
  "Твоя задача - выделить главную информацию из набора предоставленных сообщений в виде списка с указанием временных меток.\n\n**Формат ответа:**\n\n- [временная метка или диапазон] факт, событие, вывод.\n- [временная метка или диапазон] факт, событие, вывод.\n- [временная метка или диапазон] факт, событие, вывод."

/-- `COMPRESS_SYSTEM_MESSAGE_2` from `src/ai.ts` (after `.trim()`). -/
def COMPRESS_SYSTEM_MESSAGE_2 : String :=
  "Выпиши главную информацию из предоставленных сообщений."

/-- Accumulator of the `for` loop in `compressMessages`. -/
structure CompressAcc where
  texts : List String
  dateFrom : Option Int
  dateTo : Option Int
  level : Option Int
deriving Repr

/-- The `for` loop of `compressMessages` (`src/ai.ts`): serialize each item,
update `dateFrom` (`dateFrom ?? ...` keeps the first value), `dateTo`
(always overwritten) and `level` (`0` for a message, the item's own
`level` for a summary — always overwritten). -/
def compressScan (env : Env) : List ChatItem → CompressAcc → CompressAcc
  | [], acc => acc
  | .message m :: rest, acc =>
    let userMeta := "[USER, " ++ env.fmtTimestamp m.createdAt ++ "]"
    let userStr := userMeta ++ "\n\n" ++ m.userContent
    let assistantMeta := "[ASSISTANT, " ++ env.fmtTimestamp m.createdAt ++ "]"
    let assistantStr := assistantMeta ++ "\n\n" ++ m.assistantContent
    let fullStr := userStr ++ "\n\n" ++ assistantStr
    compressScan env rest
      { texts := acc.texts ++ [fullStr]
        dateFrom := some (acc.dateFrom.getD m.createdAt)
        dateTo := some m.createdAt
        level := some 0 }
  | .summary s :: rest, acc =>
    let meta := "[SUMMARY, " ++ env.fmtTimestamp s.dateFrom ++ " - " ++
      env.fmtTimestamp s.dateTo ++ "]"
    let fullStr := meta ++ "\n\n" ++ s.content
    compressScan env rest
      { texts := acc.texts ++ [fullStr]
        dateFrom := some (acc.dateFrom.getD s.dateFrom)
        dateTo := some s.dateTo
        level := some s.level }

/-- The condensing request sent by `compressMessages`: the two system
prompts around the serialized slice, `temperature 0.0`. -/
def compressRequest (env : Env) (messages : List ChatItem) :
    ChatCompletionRequest :=
  { model := "gpt-4o"
    messages :=
      [⟨"system", none, COMPRESS_SYSTEM_MESSAGE⟩,
       ⟨"user", none, String.intercalate "\n\n"
         (compressScan env messages ⟨[], none, none, none⟩).texts⟩,
       ⟨"system", none, COMPRESS_SYSTEM_MESSAGE_2⟩]
    temperature := 0 }

/-- `compressMessages` from `src/ai.ts` (the Compactor's synthesis step):
fold the slice, throw `"Empty summary"` when any of `dateFrom` / `dateTo`
/ `level` is still null, otherwise call the completion provider on the
condensing prompt, price the condensed text with the embedding provider,
and build the new summary record (`parentId = "NULL"`,
`level = level + 1`). -/
def compressMessages (env : Env) (messages : List ChatItem) :
    Except String DBSummary :=
  let acc := compressScan env messages ⟨[], none, none, none⟩
  match acc.dateFrom, acc.dateTo, acc.level with
  | some dateFrom, some dateTo, some level => do
    let resultText ← env.complete (compressRequest env messages)
    let resultTokens ← env.embedTokens resultText
    .ok { id := env.sumId, dateFrom := dateFrom, dateTo := dateTo
          content := resultText, level := level + 1
          tokensCount := resultTokens, parentId := "NULL" }
  | _, _, _ => .error "Empty summary"

/-- The two IndexedDB object stores of `src/db.ts` (`message`, `summary`),
each keyed by `id`.  Modelled as record lists; all writes go through
`put`, which keeps ids unique. -/
structure Store where
  message : List DBMessage
  summary : List DBSummary
deriving DecidableEq, Repr

/-- IndexedDB `objectStore.put` on the `message` store (keyPath `id`):
replace the record with the same key if present, insert otherwise. -/
def putMessage (l : List DBMessage) (m : DBMessage) : List DBMessage :=
  if l.any (fun x => x.id == m.id) then
    l.map fun x => if x.id == m.id then m else x
  else l ++ [m]

/-- IndexedDB `objectStore.put` on the `summary` store (keyPath `id`). -/
def putSummary (l : List DBSummary) (s : DBSummary) : List DBSummary :=
  if l.any (fun x => x.id == s.id) then
    l.map fun x => if x.id == s.id then s else x
  else l ++ [s]

/-- Successful body of `updateData` from `src/db.ts`: within one
readwrite transaction, `put` every given summary into the `summary`
store and every given message into the `message` store. -/
def updateData (st : Store) (summaries : List DBSummary)
    (messages : List DBMessage) : Store :=
  { message := messages.foldl putMessage st.message
    summary := summaries.foldl putSummary st.summary }

/-- `updateData` including its transaction outcome.  Modelled from the
spec: the IndexedDB readwrite transaction (external collaborator) is
all-or-nothing — on `transaction.onerror` the promise rejects and no
write is applied. -/
def updateDataTx (ok : Bool) (st : Store) (summaries : List DBSummary)
    (messages : List DBMessage) : Except String Store :=
  if ok then .ok (updateData st summaries messages)
  else .error "transaction error"

/-- Key lookup in the `message` store. -/
def findMessage (st : Store) (id : String) : Option DBMessage :=
  st.message.find? fun m => m.id == id

/-- Key lookup in the `summary` store. -/
def findSummary (st : Store) (id : String) : Option DBSummary :=
  st.summary.find? fun s => s.id == id

/-- The messages of the slice, reparented to the new summary
(`{ ...item, summaryId: summary.id }` in `replaceMessages`). -/
def reparentedMessages (items : List ChatItem) (summary : DBSummary) :
    List DBMessage :=
  items.filterMap fun i => match i with
    | .message m => some { m with summaryId := summary.id }
    | .summary _ => none

/-- The summaries of the slice, reparented to the new summary
(`{ ...item, parentId: summary.id }` in `replaceMessages`). -/
def reparentedSummaries (items : List ChatItem) (summary : DBSummary) :
    List DBSummary :=
  items.filterMap fun i => match i with
    | .message _ => none
    | .summary s => some { s with parentId := summary.id }

/-- `replaceMessages` from `src/ai.ts`: one `updateData` call writing the
new summary plus every reparented source record (`ok` is the outcome of
that store transaction). -/
def replaceMessages (ok : Bool) (st : Store) (items : List ChatItem)
    (summary : DBSummary) : Except String Store :=
  updateDataTx ok st (summary :: reparentedSummaries items summary)
    (reparentedMessages items summary)

/-- `compressChat` from `src/ai.ts`, with the store threaded through:
select, return unchanged when the selection is empty, otherwise
summarize and replace.  The second component is the error of a failed
pass (`none` = success). -/
def compressChatRun (env : Env) (st : Store) (chat : List ChatItem) :
    Store × Option String :=
  let messagesForSummary := selectMessagesForSummary chat
  if messagesForSummary.length = 0 then (st, none)
  else
    match compressMessages env messagesForSummary with
    | .error e => (st, some e)
    | .ok summary =>
      match replaceMessages env.compactTxOk st messagesForSummary summary with
      | .error e => (st, some e)
      | .ok st2 => (st2, none)

/-- Transcript entries contributed by one chat item in `createCompletion`
(`src/ai.ts`). -/
def promptOfItem (env : Env) : ChatItem → List OpenAIMessage
  | .message m =>
    [⟨"user", none,
      "[" ++ env.fmtTimestamp m.createdAt ++ "]" ++ "\n\n" ++ m.userContent⟩,
     ⟨"assistant", none, m.assistantContent⟩]
  | .summary s =>
    [⟨"developer", some "summary",
      "[" ++ env.fmtTimestamp s.dateFrom ++ " - " ++ env.fmtTimestamp s.dateTo
        ++ "]" ++ "\n\n" ++ s.content⟩]

/-- The full transcript built by `createCompletion`: system preamble,
entries per chat item, then the new user text with its timestamp. -/
def promptMessages (env : Env) (chat : List ChatItem) (text : String)
    (timestamp : Int) : List OpenAIMessage :=
  ⟨"system", none, CHAT_SYSTEM_PROPMT⟩ ::
    (chat.foldr (fun i acc => promptOfItem env i ++ acc)
      [⟨"user", none,
        "[" ++ env.fmtTimestamp timestamp ++ "]" ++ "\n\n" ++ text⟩])

/-- The completion request sent by `createCompletion`: the full
transcript, `temperature 1`. -/
def chatRequest (env : Env) (chat : List ChatItem) (text : String)
    (timestamp : Int) : ChatCompletionRequest :=
  { model := "gpt-4o"
    messages := promptMessages env chat text timestamp
    temperature := 1 }

/-- `createCompletion` from `src/ai.ts`, store threaded through: call the
completion provider, price `text + "\n\n" + response` with the embedding
provider, persist the new message via `updateData`, and return the
extended chat.  A provider or transaction failure leaves the store
untouched (the writes happen only after both provider calls return). -/
def createCompletionRun (env : Env) (st : Store) (chat : List ChatItem)
    (text : String) (timestamp : Int) :
    Store × Except String (List ChatItem) :=
  match env.complete (chatRequest env chat text timestamp) with
  | .error e => (st, .error e)
  | .ok respText =>
    match env.embedTokens (text ++ "\n\n" ++ respText) with
    | .error e => (st, .error e)
    | .ok tokens =>
      let newMessage : DBMessage :=
        { id := env.msgId, createdAt := timestamp, userContent := text
          assistantContent := respText, tokensCount := tokens
          summaryId := "NULL" }
      match updateDataTx env.msgTxOk st [] [newMessage] with
      | .error e => (st, .error e)
      | .ok st1 => (st1, .ok (chat ++ [ChatItem.message newMessage]))

/-- `usePostMessage().execute` from `src/ai.ts`: append the completion,
then run one compaction pass (the query invalidation is a UI effect with
no store state).  Result: final store and the error, if any phase
failed. -/
def executeRun (env : Env) (st : Store) (chat : List ChatItem)
    (text : String) (timestamp : Int) : Store × Option String :=
  match createCompletionRun env st chat text timestamp with
  | (st1, .error e) => (st1, some e)
  | (st1, .ok newChat) => compressChatRun env st1 newChat

/-- `send` from `NewMessageView` (`src/App.tsx`): awaits `postMessage`
inside `try/catch` — any failure is caught and logged, never rethrown.
Result: final store and whether the send flow succeeded. -/
def sendRun (env : Env) (st : Store) (chat : List ChatItem)
    (text : String) (timestamp : Int) : Store × Bool :=
  match executeRun env st chat text timestamp with
  | (stFinal, some _) => (stFinal, false)
  | (stFinal, none) => (stFinal, true)

/-- `getActiveMessages` from `src/db.ts`: the `summaryId` index queried
with the key `"NULL"` — exactly the messages whose parent sentinel is
unset. -/
def getActiveMessages (st : Store) : List DBMessage :=
  st.message.filter fun m => m.summaryId == "NULL"

/-- `getActiveSummaries` from `src/db.ts`: the `parentId` index queried
with the key `"NULL"`. -/
def getActiveSummaries (st : Store) : List DBSummary :=
  st.summary.filter fun s => s.parentId == "NULL"

/-- The JS sort comparator `(a, b) => a.timestamp - b.timestamp`, as the
ascending `le` relation used by the (stable) sort. -/
def chatLE (a b : ChatItem) : Bool :=
  a.timestamp ≤ b.timestamp

/-- `getChat` from `src/ai.ts` (the Assembler): tag active messages and
active summaries as chat items, concatenate, sort ascending by the
ordering timestamp.  JS `Array.prototype.sort` is a stable sort;
`List.mergeSort` is its model. -/
def getChat (st : Store) : List ChatItem :=
  (((getActiveMessages st).map ChatItem.message) ++
    ((getActiveSummaries st).map ChatItem.summary)).mergeSort chatLE

/-- `ImportedMessage` from `src/db.ts`: one message of the interchange
document.  The ISO timestamp stays a string; the nullable parent is an
`Option`, matching `string | null`. -/
structure ImportedMessage where
  id : String
  created_at : String
  user_content : String
  assistant_content : String
  tokens_count : Nat
  summary_id : Option String
deriving DecidableEq, Repr

/-- `ImportedSummary` from `src/db.ts`. -/
structure ImportedSummary where
  id : String
  date_from : String
  date_to : String
  content : String
  level : Int
  tokens_count : Nat
  parent_id : Option String
deriving DecidableEq, Repr

/-- `ImportedData` from `src/db.ts` (the `data` wrapper object is
flattened into the two collection fields). -/
structure ImportedData where
  version : String
  message : List ImportedMessage
  summary : List ImportedSummary
deriving DecidableEq, Repr

/-- `convertImportedData` from `src/db.ts`: snake-case fields to records,
`new Date(isoString)` as the given `parseDate`, and the null parent
mapped to the `"NULL"` sentinel (`?? "NULL"`). -/
def convertImportedData (parseDate : String → Int) (d : ImportedData) :
    List DBMessage × List DBSummary :=
  (d.message.map fun msg =>
    { id := msg.id
      createdAt := parseDate msg.created_at
      userContent := msg.user_content
      assistantContent := msg.assistant_content
      tokensCount := msg.tokens_count
      summaryId := msg.summary_id.getD "NULL" },
   d.summary.map fun s =>
    { id := s.id
      dateFrom := parseDate s.date_from
      dateTo := parseDate s.date_to
      content := s.content
      level := s.level
      tokensCount := s.tokens_count
      parentId := s.parent_id.getD "NULL" })

/-- `importDataToIndexedDB` from `src/db.ts`: convert, then within one
readwrite transaction `clear()` both stores and `put` every converted
summary and message.  `Date` parsing (`new Date(...)`) is the platform
collaborator `parseDate`. -/
def importDataToIndexedDB (parseDate : String → Int) (_st : Store)
    (d : ImportedData) : Store :=
  let converted := convertImportedData parseDate d
  { message := converted.1.foldl putMessage []
    summary := converted.2.foldl putSummary [] }

/-- `exportDataFromIndexedDB` from `src/db.ts`: walk both stores,
serialize each record, `Date#toISOString` as the given `printDate`, and
the `"NULL"` sentinel mapped back to an explicit null
(`parentId !== "NULL" ? parentId : null`). -/
def exportDataFromIndexedDB (printDate : Int → String) (st : Store) :
    ImportedData :=
  { version := "1"
    summary := st.summary.map fun s =>
      { id := s.id
        date_from := printDate s.dateFrom
        date_to := printDate s.dateTo
        content := s.content
        level := s.level
        tokens_count := s.tokensCount
        parent_id := if s.parentId != "NULL" then some s.parentId else none }
    message := st.message.map fun m =>
      { id := m.id
        created_at := printDate m.createdAt
        user_content := m.userContent
        assistant_content := m.assistantContent
        tokens_count := m.tokensCount
        summary_id := if m.summaryId != "NULL" then some m.summaryId
          else none } }

/-- Written from the spec's words alone (§4.4, Compaction Selector):
scan once left to right tracking `runLevel`, `runStart`, `runSum`; on a
level change start a new run; as soon as `runSum >= 2*B` return the
range `[runStart, runStart + ceil(len/2))` with `len` the number of run
items scanned so far; return nothing when the scan completes. -/
def selectorSpecScan (B : Nat) : List ChatItem → Nat → Option Int → Nat →
    Nat → Option (Nat × Nat)
  | [], _, _, _, _ => none
  | item :: rest, i, runLevel, runStart, runSum =>
    let upd :=
      if some item.itemLevel = runLevel then
        (runLevel, runStart, runSum + item.itemTokens)
      else
        (some item.itemLevel, i, item.itemTokens)
    if upd.2.2 ≥ 2 * B then
      some (upd.2.1, upd.2.1 + (i - upd.2.1 + 1 + 1) / 2)
    else
      selectorSpecScan B rest (i + 1) upd.1 upd.2.1 upd.2.2

/-- Spec-side Selector (§4.4): the slice of the returned range, empty
when no run qualifies. -/
def selectorSpec (B : Nat) (chat : List ChatItem) : List ChatItem :=
  match selectorSpecScan B chat 0 none 0 0 with
  | some (s, e) => (chat.drop s).take (e - s)
  | none => []

/-! ## Selector lemmas -/

theorem selectScan_cons_some (item : ChatItem) (rest : List ChatItem)
    (i s₀ : Nat) (level : Option Int) (t : Nat)
    (hl : some item.itemLevel = level) :
    selectScan (item :: rest) i (some s₀) level t =
      if t + item.itemTokens ≥ MIN_SUMMARY_TOKENS * 2 then
        some (s₀, s₀ + (i - s₀ + 1 + 1) / 2)
      else selectScan rest (i + 1) (some s₀) level (t + item.itemTokens) := by
  simp only [selectScan, if_pos hl]

theorem selectScan_cons_none (item : ChatItem) (rest : List ChatItem)
    (i : Nat) (level : Option Int) (t : Nat)
    (hl : some item.itemLevel = level) :
    selectScan (item :: rest) i none level t =
      selectScan rest (i + 1) none level (t + item.itemTokens) := by
  simp only [selectScan, if_pos hl]

theorem selectScan_cons_new (item : ChatItem) (rest : List ChatItem)
    (i : Nat) (startIndex : Option Nat) (level : Option Int) (t : Nat)
    (hl : ¬ some item.itemLevel = level) :
    selectScan (item :: rest) i startIndex level t =
      if item.itemTokens ≥ MIN_SUMMARY_TOKENS * 2 then
        some (i, i + (i - i + 1 + 1) / 2)
      else selectScan rest (i + 1) (some i) (some item.itemLevel)
        item.itemTokens := by
  simp only [selectScan, if_neg hl]

theorem selectScan_eq_specScan (rest : List ChatItem) :
    ∀ (i s : Nat) (l : Int) (t : Nat),
    selectScan rest i (some s) (some l) t =
      selectorSpecScan MIN_SUMMARY_TOKENS rest i (some l) s t := by
  induction rest with
  | nil => intro i s l t; rfl
  | cons item rest ih =>
    intro i s l t
    simp only [selectScan, selectorSpecScan]
    by_cases h : some item.itemLevel = (some l : Option Int)
    · simp only [if_pos h]
      have hc : MIN_SUMMARY_TOKENS * 2 = 2 * MIN_SUMMARY_TOKENS :=
        Nat.mul_comm _ _
      rw [hc]
      split
      · rfl
      · exact ih (i + 1) s l (t + item.itemTokens)
    · simp only [if_neg h]
      have hc : MIN_SUMMARY_TOKENS * 2 = 2 * MIN_SUMMARY_TOKENS :=
        Nat.mul_comm _ _
      rw [hc]
      split
      · rfl
      · exact ih (i + 1) i item.itemLevel item.itemTokens

theorem selectScan_none_eq_specScan (chat : List ChatItem) :
    selectScan chat 0 none none 0 =
      selectorSpecScan MIN_SUMMARY_TOKENS chat 0 none 0 0 := by
  cases chat with
  | nil => rfl
  | cons item rest =>
    simp only [selectScan, selectorSpecScan]
    have h : ¬ (some item.itemLevel = (none : Option Int)) := by simp
    simp only [if_neg h]
    have hc : MIN_SUMMARY_TOKENS * 2 = 2 * MIN_SUMMARY_TOKENS :=
      Nat.mul_comm _ _
    rw [hc]
    split
    · rfl
    · exact selectScan_eq_specScan rest 1 0 item.itemLevel item.itemTokens

/-- The two messages of the §8 scenario, transposed to the code's actual
budget `B = MIN_SUMMARY_TOKENS`: each costs exactly `B`, strictly
increasing timestamps, active at level 0. -/
def c1msg1 : DBMessage :=
  { id := "m1"
    createdAt := 1
    userContent := "u1"
    assistantContent := "a1"
    tokensCount := MIN_SUMMARY_TOKENS
    summaryId := "NULL" }

def c1msg2 : DBMessage :=
  { id := "m2"
    createdAt := 2
    userContent := "u2"
    assistantContent := "a2"
    tokensCount := MIN_SUMMARY_TOKENS
    summaryId := "NULL" }

/-- C1: `selectMessagesForSummary` is exactly the spec's single
left-to-right scan (restart the running sum on every level change, stop
as soon as a run's sum reaches `2*B`, return
`[runStart, runStart + ceil(len/2))`), the empty context — and any
context in which no run qualifies — yields the empty slice, and for
messages of cost `B` each, after the second message the selection covers
exactly the first message while the second stays unselected. -/
theorem selectMessagesForSummary_matches_spec :
    (∀ chat, selectMessagesForSummary chat =
      selectorSpec MIN_SUMMARY_TOKENS chat)
    ∧ selectMessagesForSummary [] = []
    ∧ selectMessagesForSummary [ChatItem.message c1msg1,
        ChatItem.message c1msg2] = [ChatItem.message c1msg1] := by
  refine ⟨fun chat => ?_, rfl, by decide⟩
  unfold selectMessagesForSummary selectorSpec
  rw [selectScan_none_eq_specScan]

theorem selectScan_same_level (chat : List ChatItem) :
    ∀ (rest : List ChatItem) (i : Nat) (startIndex : Option Nat)
      (level : Option Int) (t : Nat) (s e : Nat),
    rest = chat.drop i →
    (∀ s₀ L, startIndex = some s₀ → level = some L →
      s₀ ≤ i ∧ ∀ j it, s₀ ≤ j → j < i → chat[j]? = some it → it.itemLevel = L) →
    selectScan rest i startIndex level t = some (s, e) →
    e ≤ chat.length ∧
      ∃ L, ∀ j it, s ≤ j → j < e → chat[j]? = some it → it.itemLevel = L := by
  intro rest
  induction rest with
  | nil =>
    intro i startIndex level t s e _ _ hscan
    simp [selectScan] at hscan
  | cons item rest ih =>
    intro i startIndex level t s e hrest hinv hscan
    have hi : chat[i]? = some item := by
      have h0 : (chat.drop i)[0]? = chat[i + 0]? := List.getElem?_drop chat i 0
      rw [← hrest] at h0
      simpa using h0.symm
    have hlen : i < chat.length := by
      rcases List.getElem?_eq_some.mp hi with ⟨h, _⟩
      exact h
    have hrest' : rest = chat.drop (i + 1) := by
      have hdd := List.drop_drop 1 i chat
      rw [← hrest] at hdd
      simpa using hdd
    by_cases hl : some item.itemLevel = level
    · cases startIndex with
      | some s₀ =>
        rw [selectScan_cons_some item rest i s₀ level t hl] at hscan
        obtain ⟨L, hL⟩ : ∃ L, level = some L := ⟨item.itemLevel, hl.symm⟩
        obtain ⟨hs₀i, hpre⟩ := hinv s₀ L rfl hL
        have hitem : item.itemLevel = L := by
          rw [hL] at hl; exact Option.some.inj hl
        split at hscan
        · have h2 := Option.some.inj hscan
          have hs : s₀ = s := congrArg Prod.fst h2
          have he : s₀ + (i - s₀ + 1 + 1) / 2 = e := congrArg Prod.snd h2
          constructor
          · omega
          · refine ⟨L, fun j it hsj hje hjit => ?_⟩
            by_cases hji : j = i
            · subst hji
              rw [hi] at hjit
              rw [← Option.some.inj hjit]
              exact hitem
            · exact hpre j it (hs ▸ hsj) (by omega) hjit
        · refine ih (i + 1) (some s₀) level (t + item.itemTokens) s e hrest'
            (fun s₀' L' h1 h2 => ?_) hscan
          have hs' : s₀' = s₀ := (Option.some.inj h1).symm
          have hL' : L' = L := by rw [hL] at h2; exact (Option.some.inj h2).symm
          refine ⟨by omega, fun j it hsj hje hjit => ?_⟩
          by_cases hji : j = i
          · subst hji
            rw [hi] at hjit
            rw [← Option.some.inj hjit, hL', hitem]
          · exact hpre j it (by omega) (by omega) hjit |>.trans hL'.symm
      | none =>
        rw [selectScan_cons_none item rest i level t hl] at hscan
        exact ih (i + 1) none level (t + item.itemTokens) s e hrest'
          (fun s₀' L' h1 _ => by cases h1) hscan
    · rw [selectScan_cons_new item rest i startIndex level t hl] at hscan
      split at hscan
      · have h2 := Option.some.inj hscan
        have hs : i = s := congrArg Prod.fst h2
        have he : i + (i - i + 1 + 1) / 2 = e := congrArg Prod.snd h2
        constructor
        · omega
        · refine ⟨item.itemLevel, fun j it hsj hje hjit => ?_⟩
          have hji : j = i := by omega
          subst hji
          rw [hi] at hjit
          rw [← Option.some.inj hjit]
      · refine ih (i + 1) (some i) (some item.itemLevel) item.itemTokens s e hrest'
          (fun s₀' L' h1 h2 => ?_) hscan
        have hs' : s₀' = i := (Option.some.inj h1).symm
        have hL' : L' = item.itemLevel := (Option.some.inj h2).symm
        refine ⟨by omega, fun j it hsj hje hjit => ?_⟩
        have hji : j = i := by omega
        subst hji
        rw [hi] at hjit
        rw [← Option.some.inj hjit, hL']

/-- The four items of the §8 alternating scenario: levels 0, 1, 0, 1,
each costing `2*B` on its own. -/
def c2item0 : ChatItem :=
  .message
    { id := "x1"
      createdAt := 1
      userContent := "u1"
      assistantContent := "a1"
      tokensCount := 8000
      summaryId := "NULL" }

def c2item1 : ChatItem :=
  .summary
    { id := "y1"
      dateFrom := 1
      dateTo := 2
      content := "s1"
      level := 1
      tokensCount := 8000
      parentId := "NULL" }

def c2item2 : ChatItem :=
  .message
    { id := "x2"
      createdAt := 3
      userContent := "u2"
      assistantContent := "a2"
      tokensCount := 8000
      summaryId := "NULL" }

def c2item3 : ChatItem :=
  .summary
    { id := "y2"
      dateFrom := 3
      dateTo := 4
      content := "s2"
      level := 1
      tokensCount := 8000
      parentId := "NULL" }

/-- C2: any non-empty slice returned by `selectMessagesForSummary` is a
contiguous slice of the context all of whose items share one level (a
message counting as level 0); and on the alternating 0,1,0,1 context
whose items each cost `2*B` alone, the selection is the first
single-item run in scan order. -/
theorem selectMessagesForSummary_single_level (chat : List ChatItem)
    (h : selectMessagesForSummary chat ≠ []) :
    ((∃ s k, selectMessagesForSummary chat = (chat.drop s).take k) ∧
     (∃ L, ∀ it ∈ selectMessagesForSummary chat, it.itemLevel = L)) ∧
    selectMessagesForSummary [c2item0, c2item1, c2item2, c2item3] = [c2item0] := by
  refine ⟨?_, by decide⟩
  unfold selectMessagesForSummary at *
  cases hscan : selectScan chat 0 none none 0 with
  | none => rw [hscan] at h; exact absurd rfl h
  | some se =>
    obtain ⟨s, e⟩ := se
    refine ⟨⟨s, e - s, rfl⟩, ?_⟩
    obtain ⟨hel, L, hL⟩ := selectScan_same_level chat chat 0 none none 0 s e
      (List.drop_zero chat).symm (fun s₀ L h1 _ => by cases h1) hscan
    refine ⟨L, fun it hit => ?_⟩
    obtain ⟨n, hn⟩ := List.mem_iff_getElem?.mp hit
    rw [List.getElem?_take] at hn
    split at hn
    · rename_i hlt
      rw [List.getElem?_drop] at hn
      exact hL (s + n) it (by omega) (by omega) hn
    · cases hn

/-- Witness for C2 at the concrete alternating context. -/
theorem selectMessagesForSummary_single_level_witness :
    selectMessagesForSummary [c2item0, c2item1, c2item2, c2item3] ≠ [] ∧
    ((∃ s k, selectMessagesForSummary [c2item0, c2item1, c2item2, c2item3] =
        (([c2item0, c2item1, c2item2, c2item3] : List ChatItem).drop s).take k) ∧
     (∃ L, ∀ it ∈ selectMessagesForSummary [c2item0, c2item1, c2item2, c2item3],
        it.itemLevel = L)) :=
  ⟨by decide,
   (selectMessagesForSummary_single_level
      [c2item0, c2item1, c2item2, c2item3] (by decide)).1⟩

/-! ## Compactor lemmas -/

theorem compressScan_dateFrom (env : Env) :
    ∀ (l : List ChatItem) (acc : CompressAcc) (h : l ≠ []),
    (compressScan env l acc).dateFrom =
      some (acc.dateFrom.getD (l.head h).startTimestamp) := by
  intro l
  induction l with
  | nil => intro acc h; exact absurd rfl h
  | cons x rest ih =>
    intro acc h
    cases rest with
    | nil =>
      cases x <;> simp [compressScan, ChatItem.startTimestamp]
    | cons y rest' =>
      have hne : (y :: rest') ≠ [] := by simp
      cases x with
      | message m =>
        simp only [compressScan]
        rw [ih _ hne]
        simp [ChatItem.startTimestamp]
      | summary s =>
        simp only [compressScan]
        rw [ih _ hne]
        simp [ChatItem.startTimestamp]

theorem compressScan_dateTo (env : Env) :
    ∀ (l : List ChatItem) (acc : CompressAcc) (h : l ≠ []),
    (compressScan env l acc).dateTo = some (l.getLast h).timestamp := by
  intro l
  induction l with
  | nil => intro acc h; exact absurd rfl h
  | cons x rest ih =>
    intro acc h
    cases rest with
    | nil =>
      cases x <;> simp [compressScan, ChatItem.timestamp]
    | cons y rest' =>
      have hne : (y :: rest') ≠ [] := by simp
      cases x with
      | message m =>
        simp only [compressScan]
        rw [ih _ hne]
        simp [List.getLast_cons]
      | summary s =>
        simp only [compressScan]
        rw [ih _ hne]
        simp [List.getLast_cons]

theorem compressScan_level (env : Env) :
    ∀ (l : List ChatItem) (acc : CompressAcc) (h : l ≠ []),
    (compressScan env l acc).level = some (l.getLast h).itemLevel := by
  intro l
  induction l with
  | nil => intro acc h; exact absurd rfl h
  | cons x rest ih =>
    intro acc h
    cases rest with
    | nil =>
      cases x <;> simp [compressScan, ChatItem.itemLevel]
    | cons y rest' =>
      have hne : (y :: rest') ≠ [] := by simp
      cases x with
      | message m =>
        simp only [compressScan]
        rw [ih _ hne]
        simp [List.getLast_cons]
      | summary s =>
        simp only [compressScan]
        rw [ih _ hne]
        simp [List.getLast_cons]

/-- C3 (amended): for a non-empty slice sharing one level `L`, with both
provider calls succeeding, `compressMessages` returns a summary with
`level = L + 1` (`= max(source levels) + 1`), `dateFrom` = the first
item's own start timestamp (`createdAt` for a message, `dateFrom` — not
the ordering timestamp `dateTo` — for a summary), `dateTo` = the last
item's ordering timestamp, a `"NULL"` parent reference, and `tokensCount`
= the embedding provider's total-token count over the condensed text
alone (which is also the summary's `content`). -/
theorem compressMessages_fields (env : Env) (slice : List ChatItem) (L : Int)
    (hne : slice ≠ [])
    (hlvl : ∀ it ∈ slice, it.itemLevel = L)
    (text : String) (tok : Nat)
    (hc : env.complete (compressRequest env slice) = .ok text)
    (he : env.embedTokens text = .ok tok) :
    compressMessages env slice = .ok
      { id := env.sumId
        dateFrom := (slice.head hne).startTimestamp
        dateTo := (slice.getLast hne).timestamp
        content := text
        level := L + 1
        tokensCount := tok
        parentId := "NULL" } := by
  have hlast : (slice.getLast hne).itemLevel = L :=
    hlvl _ (List.getLast_mem hne)
  unfold compressMessages
  dsimp only
  rw [compressScan_dateFrom env slice _ hne, compressScan_dateTo env slice _ hne,
    compressScan_level env slice _ hne]
  simp only [Option.getD_none, hc, hlast]
  simp only [bind, Except.instMonad, Except.bind, he]

/-- A concrete environment whose providers always succeed. -/
def cexEnv : Env :=
  { complete := fun _ => .ok "condensed"
    embedTokens := fun _ => .ok 7
    msgId := "fresh-message-id"
    sumId := "fresh-summary-id"
    fmtTimestamp := fun n => toString n
    msgTxOk := true
    compactTxOk := true }

def c3sum1 : DBSummary :=
  { id := "s1"
    dateFrom := 0
    dateTo := 5
    content := "c1"
    level := 1
    tokensCount := 10
    parentId := "NULL" }

def c3sum2 : DBSummary :=
  { id := "s2"
    dateFrom := 6
    dateTo := 10
    content := "c2"
    level := 1
    tokensCount := 10
    parentId := "NULL" }

/-- C3 counterexample: on the homogeneous level-1 slice
`[c3sum1, c3sum2]`, the constructed summary's `dateFrom` is `0` — the
first item's `dateFrom` — while the first item's *ordering* timestamp
(`dateTo`) is `5`; so "dateFrom computed from the slice's first ordering
timestamp", as the claim states it, fails. -/
theorem compressMessages_dateFrom_cex :
    (compressMessages cexEnv
        [ChatItem.summary c3sum1, ChatItem.summary c3sum2]).toOption.map
      DBSummary.dateFrom = some 0 ∧
    (ChatItem.summary c3sum1).timestamp = 5 := by
  constructor
  · rfl
  · rfl

def c4msg : DBMessage :=
  { id := "m0"
    createdAt := 1
    userContent := "u"
    assistantContent := "a"
    tokensCount := 5
    summaryId := "NULL" }

/-- C4 counterexample: the slice `[level-0 message, level-1 summary]`
does not share one level, yet `compressMessages` (providers succeeding)
does not fail — it returns a summary (of level `1 + 1 = 2`, the last
item's level plus one) instead of treating the heterogeneous slice as an
invariant violation. -/
theorem compressMessages_hetero_cex :
    (([ChatItem.message c4msg, ChatItem.summary c3sum1]).map ChatItem.itemLevel
      = [0, 1]) ∧
    (compressMessages cexEnv
        [ChatItem.message c4msg, ChatItem.summary c3sum1]).toOption.map
      DBSummary.level = some 2 := by
  constructor
  · rfl
  · rfl

/-- C4 (amended): `compressMessages` fails loudly only for the empty
slice (`"Empty summary"`); it performs no level-homogeneity validation —
for any non-empty slice, heterogeneous included, it builds a summary
whose `level` is the *last* item's level plus one. -/
theorem compressMessages_no_level_validation (env : Env)
    (slice : List ChatItem) :
    (slice = [] → compressMessages env slice = .error "Empty summary") ∧
    (∀ (hne : slice ≠ []) (text : String) (tok : Nat),
      env.complete (compressRequest env slice) = .ok text →
      env.embedTokens text = .ok tok →
      compressMessages env slice = .ok
        { id := env.sumId
          dateFrom := (slice.head hne).startTimestamp
          dateTo := (slice.getLast hne).timestamp
          content := text
          level := (slice.getLast hne).itemLevel + 1
          tokensCount := tok
          parentId := "NULL" }) := by
  constructor
  · intro h
    subst h
    rfl
  · intro hne text tok hc he
    unfold compressMessages
    dsimp only
    rw [compressScan_dateFrom env slice _ hne, compressScan_dateTo env slice _ hne,
      compressScan_level env slice _ hne]
    simp only [Option.getD_none, hc]
    simp only [bind, Except.instMonad, Except.bind, he]

/-- Witness for C3's amended theorem at a concrete homogeneous slice. -/
theorem compressMessages_fields_witness :
    compressMessages cexEnv [ChatItem.summary c3sum1, ChatItem.summary c3sum2]
      = .ok
      { id := "fresh-summary-id"
        dateFrom := 0
        dateTo := 10
        content := "condensed"
        level := 2
        tokensCount := 7
        parentId := "NULL" } :=
  compressMessages_fields cexEnv
    [ChatItem.summary c3sum1, ChatItem.summary c3sum2] 1 (by decide)
    (by decide) "condensed" 7 rfl rfl

/-- Witness for C4's amended theorem at the empty and at a concrete
heterogeneous slice. -/
theorem compressMessages_no_level_validation_witness :
    compressMessages cexEnv [] = .error "Empty summary" ∧
    compressMessages cexEnv [ChatItem.message c4msg, ChatItem.summary c3sum1]
      = .ok
      { id := "fresh-summary-id"
        dateFrom := 1
        dateTo := 5
        content := "condensed"
        level := 2
        tokensCount := 7
        parentId := "NULL" } :=
  ⟨(compressMessages_no_level_validation cexEnv []).1 rfl,
   (compressMessages_no_level_validation cexEnv
      [ChatItem.message c4msg, ChatItem.summary c3sum1]).2 (by decide)
      "condensed" 7 rfl rfl⟩

/-! ## Store and orchestration lemmas -/

theorem putMessage_find_self (l : List DBMessage) (m : DBMessage) :
    (putMessage l m).find? (fun x => x.id == m.id) = some m := by
  unfold putMessage
  split
  · rename_i hany
    rw [List.find?_map]
    have hpf : ((fun x : DBMessage => x.id == m.id) ∘
        (fun x => if x.id == m.id then m else x)) =
        fun x : DBMessage => x.id == m.id := by
      funext x
      by_cases hx : (x.id == m.id) = true
      · simp [Function.comp, hx]
      · simp [Function.comp, hx]
    rw [hpf]
    obtain ⟨x₀, hx₀⟩ : ∃ x₀, l.find? (fun x => x.id == m.id) = some x₀ := by
      have := @List.find?_isSome _ l (fun x => x.id == m.id)
      rw [Option.isSome_iff_exists] at this
      exact this.mpr (List.any_eq_true.mp hany)
    rw [hx₀]
    have hp := List.find?_some hx₀
    simp [hp]
    intro hc
    exact absurd (beq_iff_eq.mp hp) hc
  · rename_i hany
    rw [List.find?_append]
    have h1 : l.find? (fun x => x.id == m.id) = none := by
      rw [List.find?_eq_none]
      intro x hx
      intro hpx
      exact hany (List.any_eq_true.mpr ⟨x, hx, hpx⟩)
    rw [h1]
    simp

theorem putMessage_find_other (l : List DBMessage) (m : DBMessage)
    (i : String) (h : (m.id == i) = false) :
    (putMessage l m).find? (fun x => x.id == i) =
      l.find? (fun x => x.id == i) := by
  unfold putMessage
  split
  · rw [List.find?_map]
    have hpf : ((fun x : DBMessage => x.id == i) ∘
        (fun x => if x.id == m.id then m else x)) =
        fun x : DBMessage => x.id == i := by
      funext x
      by_cases hx : (x.id == m.id) = true
      · have : x.id = m.id := beq_iff_eq.mp hx
        simp [Function.comp, hx, this, h]
      · simp [Function.comp, hx]
    rw [hpf]
    cases hfind : l.find? (fun x => x.id == i) with
    | none => rfl
    | some x₀ =>
      have hp := List.find?_some hfind
      have : ¬ (x₀.id == m.id) = true := by
        intro hc
        rw [beq_iff_eq.mp hc] at hp
        rw [hp] at h
        cases h
      simp [this]
      intro hc
      exact absurd (beq_iff_eq.mpr hc) this
  · rw [List.find?_append]
    have h2 : List.find? (fun x => x.id == i) [m] = none := by
      simp [List.find?, h]
    rw [h2, Option.or_none]

theorem foldl_putMessage_not_mem (ms : List DBMessage) :
    ∀ (init : List DBMessage) (i : String),
    (∀ m ∈ ms, (m.id == i) = false) →
    (ms.foldl putMessage init).find? (fun x => x.id == i) =
      init.find? (fun x => x.id == i) := by
  induction ms with
  | nil => intro init i _; rfl
  | cons a rest ih =>
    intro init i h
    simp only [List.foldl_cons]
    rw [ih (putMessage init a) i (fun m hm => h m (List.mem_cons_of_mem a hm))]
    exact putMessage_find_other init a i (h a (List.mem_cons_self a rest))

theorem foldl_putMessage_mem (ms : List DBMessage) :
    ∀ (init : List DBMessage) (m : DBMessage),
    m ∈ ms →
    (ms.map (fun x => x.id)).Nodup →
    (ms.foldl putMessage init).find? (fun x => x.id == m.id) = some m := by
  induction ms with
  | nil => intro init m hm _; cases hm
  | cons a rest ih =>
    intro init m hm hnd
    simp only [List.map_cons, List.nodup_cons] at hnd
    simp only [List.foldl_cons]
    rcases List.mem_cons.mp hm with rfl | hm'
    · rw [foldl_putMessage_not_mem rest (putMessage init m) m.id ?_]
      · exact putMessage_find_self init m
      · intro r hr
        by_cases hc : (r.id == m.id) = true
        · exact absurd (beq_iff_eq.mp hc ▸ List.mem_map_of_mem (fun x => x.id) hr) hnd.1
        · simpa using hc
    · exact ih (putMessage init a) m hm' hnd.2

theorem foldl_putMessage_disjoint (ms : List DBMessage) :
    ∀ (acc : List DBMessage),
    (acc.map (fun x => x.id) ++ ms.map (fun x => x.id)).Nodup →
    ms.foldl putMessage acc = acc ++ ms := by
  induction ms with
  | nil => intro acc _; simp
  | cons a rest ih =>
    intro acc hnd
    simp only [List.foldl_cons]
    have hput : putMessage acc a = acc ++ [a] := by
      unfold putMessage
      rw [if_neg ?_]
      intro hc
      obtain ⟨x, hx, hpx⟩ := List.any_eq_true.mp hc
      rw [List.nodup_append] at hnd
      exact hnd.2.2 (List.mem_map_of_mem (fun x => x.id) hx)
        (by simp [beq_iff_eq.mp hpx])
    rw [hput, ih (acc ++ [a]) ?_]
    · simp
    · simp only [List.map_append, List.map_cons] at hnd ⊢
      simpa [List.append_assoc] using hnd

theorem putSummary_find_self (l : List DBSummary) (m : DBSummary) :
    (putSummary l m).find? (fun x => x.id == m.id) = some m := by
  unfold putSummary
  split
  · rename_i hany
    rw [List.find?_map]
    have hpf : ((fun x : DBSummary => x.id == m.id) ∘
        (fun x => if x.id == m.id then m else x)) =
        fun x : DBSummary => x.id == m.id := by
      funext x
      by_cases hx : (x.id == m.id) = true
      · simp [Function.comp, hx]
      · simp [Function.comp, hx]
    rw [hpf]
    obtain ⟨x₀, hx₀⟩ : ∃ x₀, l.find? (fun x => x.id == m.id) = some x₀ := by
      have := @List.find?_isSome _ l (fun x => x.id == m.id)
      rw [Option.isSome_iff_exists] at this
      exact this.mpr (List.any_eq_true.mp hany)
    rw [hx₀]
    have hp := List.find?_some hx₀
    simp [hp]
    intro hc
    exact absurd (beq_iff_eq.mp hp) hc
  · rename_i hany
    rw [List.find?_append]
    have h1 : l.find? (fun x => x.id == m.id) = none := by
      rw [List.find?_eq_none]
      intro x hx
      intro hpx
      exact hany (List.any_eq_true.mpr ⟨x, hx, hpx⟩)
    rw [h1]
    simp

theorem putSummary_find_other (l : List DBSummary) (m : DBSummary)
    (i : String) (h : (m.id == i) = false) :
    (putSummary l m).find? (fun x => x.id == i) =
      l.find? (fun x => x.id == i) := by
  unfold putSummary
  split
  · rw [List.find?_map]
    have hpf : ((fun x : DBSummary => x.id == i) ∘
        (fun x => if x.id == m.id then m else x)) =
        fun x : DBSummary => x.id == i := by
      funext x
      by_cases hx : (x.id == m.id) = true
      · have : x.id = m.id := beq_iff_eq.mp hx
        simp [Function.comp, hx, this, h]
      · simp [Function.comp, hx]
    rw [hpf]
    cases hfind : l.find? (fun x => x.id == i) with
    | none => rfl
    | some x₀ =>
      have hp := List.find?_some hfind
      have : ¬ (x₀.id == m.id) = true := by
        intro hc
        rw [beq_iff_eq.mp hc] at hp
        rw [hp] at h
        cases h
      simp [this]
      intro hc
      exact absurd (beq_iff_eq.mpr hc) this
  · rw [List.find?_append]
    have h2 : List.find? (fun x => x.id == i) [m] = none := by
      simp [List.find?, h]
    rw [h2, Option.or_none]

theorem foldl_putSummary_not_mem (ms : List DBSummary) :
    ∀ (init : List DBSummary) (i : String),
    (∀ m ∈ ms, (m.id == i) = false) →
    (ms.foldl putSummary init).find? (fun x => x.id == i) =
      init.find? (fun x => x.id == i) := by
  induction ms with
  | nil => intro init i _; rfl
  | cons a rest ih =>
    intro init i h
    simp only [List.foldl_cons]
    rw [ih (putSummary init a) i (fun m hm => h m (List.mem_cons_of_mem a hm))]
    exact putSummary_find_other init a i (h a (List.mem_cons_self a rest))

theorem foldl_putSummary_mem (ms : List DBSummary) :
    ∀ (init : List DBSummary) (m : DBSummary),
    m ∈ ms →
    (ms.map (fun x => x.id)).Nodup →
    (ms.foldl putSummary init).find? (fun x => x.id == m.id) = some m := by
  induction ms with
  | nil => intro init m hm _; cases hm
  | cons a rest ih =>
    intro init m hm hnd
    simp only [List.map_cons, List.nodup_cons] at hnd
    simp only [List.foldl_cons]
    rcases List.mem_cons.mp hm with rfl | hm'
    · rw [foldl_putSummary_not_mem rest (putSummary init m) m.id ?_]
      · exact putSummary_find_self init m
      · intro r hr
        by_cases hc : (r.id == m.id) = true
        · exact absurd (beq_iff_eq.mp hc ▸ List.mem_map_of_mem (fun x => x.id) hr) hnd.1
        · simpa using hc
    · exact ih (putSummary init a) m hm' hnd.2

theorem foldl_putSummary_disjoint (ms : List DBSummary) :
    ∀ (acc : List DBSummary),
    (acc.map (fun x => x.id) ++ ms.map (fun x => x.id)).Nodup →
    ms.foldl putSummary acc = acc ++ ms := by
  induction ms with
  | nil => intro acc _; simp
  | cons a rest ih =>
    intro acc hnd
    simp only [List.foldl_cons]
    have hput : putSummary acc a = acc ++ [a] := by
      unfold putSummary
      rw [if_neg ?_]
      intro hc
      obtain ⟨x, hx, hpx⟩ := List.any_eq_true.mp hc
      rw [List.nodup_append] at hnd
      exact hnd.2.2 (List.mem_map_of_mem (fun x => x.id) hx)
        (by simp [beq_iff_eq.mp hpx])
    rw [hput, ih (acc ++ [a]) ?_]
    · simp
    · simp only [List.map_append, List.map_cons] at hnd ⊢
      simpa [List.append_assoc] using hnd

/-- C5: after a successful `replaceMessages(slice, summary)` the store
holds the new summary (with its null `"NULL"` parent) and every message
and summary of the slice with its parent set to the new summary's id —
all written by the one `updateData` transaction; a failed transaction
yields an error and no store, and a compaction pass whose transaction
fails leaves the ambient store untouched (all-or-nothing). -/
theorem replaceMessages_atomic (st : Store) (items : List ChatItem)
    (summary : DBSummary)
    (hpar : summary.parentId = "NULL")
    (hmid : ((reparentedMessages items summary).map (fun m => m.id)).Nodup)
    (hsid : ((summary :: reparentedSummaries items summary).map
      (fun s => s.id)).Nodup) :
    (∀ st', replaceMessages true st items summary = .ok st' →
      findSummary st' summary.id = some summary ∧
      summary.parentId = "NULL" ∧
      (∀ m, ChatItem.message m ∈ items →
        findMessage st' m.id = some { m with summaryId := summary.id }) ∧
      (∀ s, ChatItem.summary s ∈ items →
        findSummary st' s.id = some { s with parentId := summary.id })) ∧
    (replaceMessages false st items summary = .error "transaction error") ∧
    (∀ env chat, env.compactTxOk = false →
      (compressChatRun env st chat).1 = st) := by
  refine ⟨?_, rfl, ?_⟩
  · intro st' hst'
    have hup : st' = updateData st (summary :: reparentedSummaries items summary)
        (reparentedMessages items summary) := by
      simpa [replaceMessages, updateDataTx] using hst'.symm
    subst hup
    refine ⟨?_, hpar, ?_, ?_⟩
    · exact foldl_putSummary_mem _ _ summary (List.mem_cons_self _ _) hsid
    · intro m hm
      have hmem : ({ m with summaryId := summary.id } : DBMessage) ∈
          reparentedMessages items summary :=
        List.mem_filterMap.mpr ⟨ChatItem.message m, hm, rfl⟩
      exact foldl_putMessage_mem _ _ _ hmem hmid
    · intro s hs
      have hmem : ({ s with parentId := summary.id } : DBSummary) ∈
          summary :: reparentedSummaries items summary :=
        List.mem_cons_of_mem _ (List.mem_filterMap.mpr ⟨ChatItem.summary s, hs, rfl⟩)
      exact foldl_putSummary_mem _ _ _ hmem hsid
  · intro env chat hok
    unfold compressChatRun
    dsimp only
    split
    · rfl
    · cases hcm : compressMessages env (selectMessagesForSummary chat) with
      | error e => rfl
      | ok summ => simp [replaceMessages, updateDataTx, hok]

def c6msg : DBMessage :=
  { id := "cm"
    createdAt := 1
    userContent := "cu"
    assistantContent := "ca"
    tokensCount := 3
    summaryId := "NULL" }

def c6sum : DBSummary :=
  { id := "cs"
    dateFrom := 0
    dateTo := 2
    content := "cc"
    level := 1
    tokensCount := 4
    parentId := "NULL" }

def c6store : Store :=
  { message := [c6msg]
    summary := [c6sum] }

/-- C6: `getChat` returns exactly the union of the active messages and
active summaries, sorted ascending by the ordering timestamp
(`createdAt` / `dateTo`); one active message at `T1 = 1` and one active
summary at `T2 = 2` come out as `[message, summary]`. -/
theorem getChat_sorted_union (st : Store) :
    ((getChat st).Perm
      (((getActiveMessages st).map ChatItem.message) ++
        ((getActiveSummaries st).map ChatItem.summary))) ∧
    List.Pairwise (fun a b : ChatItem => a.timestamp ≤ b.timestamp)
      (getChat st) ∧
    getChat c6store = [ChatItem.message c6msg, ChatItem.summary c6sum] := by
  refine ⟨List.mergeSort_perm _ _, ?_, ?c6s⟩
  case c6s =>
    unfold getChat
    rw [List.mergeSort_of_sorted (by decide)]
    rfl
  have htrans : ∀ a b c : ChatItem, chatLE a b = true → chatLE b c = true →
      chatLE a c = true := by
    intro a b c hab hbc
    simp only [chatLE, decide_eq_true_eq] at *
    omega
  have htotal : ∀ a b : ChatItem, (chatLE a b || chatLE b a) = true := by
    intro a b
    simp only [chatLE, Bool.or_eq_true, decide_eq_true_eq]
    omega
  have h := List.sorted_mergeSort htrans htotal
    (((getActiveMessages st).map ChatItem.message) ++
      ((getActiveSummaries st).map ChatItem.summary))
  exact h.imp (fun hab => by simpa [chatLE, decide_eq_true_eq] using hab)

theorem compressChatRun_fail_fst (env : Env) (st : Store)
    (chat : List ChatItem) (e : String)
    (h : (compressChatRun env st chat).2 = some e) :
    (compressChatRun env st chat).1 = st := by
  unfold compressChatRun at h ⊢
  dsimp only at h ⊢
  by_cases hsel : (selectMessagesForSummary chat).length = 0
  · rw [if_pos hsel] at h
    cases h
  · rw [if_neg hsel] at h ⊢
    cases hcm : compressMessages env (selectMessagesForSummary chat) with
    | error e2 => rfl
    | ok summ =>
      rw [hcm] at h
      dsimp only at h ⊢
      cases hrep : replaceMessages env.compactTxOk st
          (selectMessagesForSummary chat) summ with
      | error e3 => rfl
      | ok st2 =>
        rw [hrep] at h
        cases h

/-- C7: when `createCompletion` has persisted the new message and the
subsequent `compressChat` pass fails (provider call or store write), the
failure is caught by `send` (result flag `false`, nothing rethrown) and
the final store is exactly the post-append store, which still holds the
new message (timestamp, text and active sentinel intact). -/
theorem sendRun_keeps_message (env : Env) (st : Store) (chat : List ChatItem)
    (text : String) (ts : Int) (st1 : Store) (newChat : List ChatItem)
    (h1 : createCompletionRun env st chat text ts = (st1, .ok newChat))
    (e : String)
    (h2 : (compressChatRun env st1 newChat).2 = some e) :
    sendRun env st chat text ts = (st1, false) ∧
    ∃ m, findMessage st1 env.msgId = some m ∧
      m.createdAt = ts ∧ m.userContent = text ∧ m.summaryId = "NULL" := by
  have hfst := compressChatRun_fail_fst env st1 newChat e h2
  have hpair : compressChatRun env st1 newChat = (st1, some e) := by
    calc compressChatRun env st1 newChat
        = ((compressChatRun env st1 newChat).1,
            (compressChatRun env st1 newChat).2) := rfl
      _ = (st1, some e) := by rw [hfst, h2]
  constructor
  · unfold sendRun executeRun
    rw [h1]
    dsimp only
    rw [hpair]
  · unfold createCompletionRun at h1
    cases hc : env.complete (chatRequest env chat text ts) with
    | error e1 =>
      rw [hc] at h1
      exact absurd (congrArg Prod.snd h1) (by simp)
    | ok respText =>
      rw [hc] at h1
      dsimp only at h1
      cases ht : env.embedTokens (text ++ "\n\n" ++ respText) with
      | error e2 =>
        rw [ht] at h1
        exact absurd (congrArg Prod.snd h1) (by simp)
      | ok tokens =>
        rw [ht] at h1
        dsimp only at h1
        cases hok : env.msgTxOk with
        | false =>
          rw [hok] at h1
          simp [updateDataTx] at h1
        | true =>
          rw [hok] at h1
          simp only [updateDataTx, if_pos] at h1
          have hst1 : updateData st []
              [{ id := env.msgId
                 createdAt := ts
                 userContent := text
                 assistantContent := respText
                 tokensCount := tokens
                 summaryId := "NULL" }] = st1 := congrArg Prod.fst h1
          refine ⟨{ id := env.msgId
                    createdAt := ts
                    userContent := text
                    assistantContent := respText
                    tokensCount := tokens
                    summaryId := "NULL" }, ?_, rfl, rfl, rfl⟩
          rw [← hst1]
          simp only [findMessage, updateData, List.foldl_cons, List.foldl_nil]
          have hself := putMessage_find_self st.message
            { id := env.msgId
              createdAt := ts
              userContent := text
              assistantContent := respText
              tokensCount := tokens
              summaryId := "NULL" }
          simpa using hself

def c7env : Env :=
  { complete := fun _ => .ok "resp"
    embedTokens := fun _ => .ok 9000
    msgId := "nm1"
    sumId := "ns1"
    fmtTimestamp := fun n => toString n
    msgTxOk := true
    compactTxOk := false }

def c7msg : DBMessage :=
  { id := "nm1"
    createdAt := 5
    userContent := "hello"
    assistantContent := "resp"
    tokensCount := 9000
    summaryId := "NULL" }

/-- Witness for C7: providers succeed, the message-append transaction
succeeds and the compaction transaction fails. -/
theorem sendRun_keeps_message_witness :
    sendRun c7env { message := [], summary := [] } [] "hello" 5 =
      ({ message := [c7msg], summary := [] }, false) ∧
    ∃ m, findMessage { message := [c7msg], summary := [] } c7env.msgId
        = some m ∧
      m.createdAt = 5 ∧ m.userContent = "hello" ∧ m.summaryId = "NULL" :=
  sendRun_keeps_message c7env { message := [], summary := [] } [] "hello" 5
    { message := [c7msg], summary := [] } [ChatItem.message c7msg] rfl
    "transaction error" rfl

def c5newSum : DBSummary :=
  { id := "s-new"
    dateFrom := 1
    dateTo := 5
    content := "cond"
    level := 2
    tokensCount := 7
    parentId := "NULL" }

/-- Witness for C5 at a concrete store, slice and summary. -/
theorem replaceMessages_atomic_witness :
    ∃ st', replaceMessages true { message := [], summary := [] }
        [ChatItem.message c4msg, ChatItem.summary c3sum1] c5newSum
        = .ok st' ∧
      findSummary st' c5newSum.id = some c5newSum ∧
      findMessage st' c4msg.id = some { c4msg with summaryId := c5newSum.id } ∧
      findSummary st' c3sum1.id = some { c3sum1 with parentId := c5newSum.id } := by
  obtain ⟨h1, h2, h3⟩ := replaceMessages_atomic
    { message := [], summary := [] }
    [ChatItem.message c4msg, ChatItem.summary c3sum1] c5newSum rfl
    (by decide) (by decide)
  refine ⟨updateData { message := [], summary := [] }
    (c5newSum :: reparentedSummaries
      [ChatItem.message c4msg, ChatItem.summary c3sum1] c5newSum)
    (reparentedMessages
      [ChatItem.message c4msg, ChatItem.summary c3sum1] c5newSum), rfl, ?_⟩
  obtain ⟨ha, _, hb, hc⟩ := h1 _ rfl
  exact ⟨ha, hb c4msg (by decide), hc c3sum1 (by decide)⟩

def c8old : DBMessage :=
  { id := "dup"
    createdAt := 0
    userContent := "old"
    assistantContent := "oa"
    tokensCount := 1
    summaryId := "NULL" }

def c8new : DBMessage :=
  { id := "dup"
    createdAt := 9
    userContent := "new"
    assistantContent := "na"
    tokensCount := 2
    summaryId := "NULL" }

/-- C8 counterexample: writing a message whose id `"dup"` collides with
an existing record does not fail — `put` replaces the stored record with
the new one. -/
theorem updateData_overwrite_cex :
    updateData { message := [c8old], summary := [] } [] [c8new] =
      { message := [c8new], summary := [] } ∧ c8old ≠ c8new := by
  constructor
  · rfl
  · decide

/-- C8 (amended): the store's write operation upserts (IndexedDB
`put`): the written record becomes the one found under its id —
overwriting any existing record with that id, which is exactly the
mechanism reparenting relies on — and records under every other id are
untouched; no id-collision rejection exists. -/
theorem updateData_upserts (st : Store) (m : DBMessage) (s : DBSummary) :
    (findMessage (updateData st [] [m]) m.id = some m) ∧
    (∀ i, (m.id == i) = false →
      findMessage (updateData st [] [m]) i = findMessage st i) ∧
    (findSummary (updateData st [s] []) s.id = some s) ∧
    (∀ i, (s.id == i) = false →
      findSummary (updateData st [s] []) i = findSummary st i) := by
  refine ⟨?_, ?_, ?_, ?_⟩
  · simp only [findMessage, updateData, List.foldl_cons, List.foldl_nil]
    exact putMessage_find_self st.message m
  · intro i hi
    simp only [findMessage, updateData, List.foldl_cons, List.foldl_nil]
    exact putMessage_find_other st.message m i hi
  · simp only [findSummary, updateData, List.foldl_cons, List.foldl_nil]
    exact putSummary_find_self st.summary s
  · intro i hi
    simp only [findSummary, updateData, List.foldl_cons, List.foldl_nil]
    exact putSummary_find_other st.summary s i hi

/-- Witness for C8's amended theorem at concrete records. -/
theorem updateData_upserts_witness :
    (findMessage (updateData { message := [c8old], summary := [] } [] [c8new])
      c8new.id = some c8new) ∧
    (findMessage (updateData { message := [c8old], summary := [] } [] [c8new])
      "other" = findMessage { message := [c8old], summary := [] } "other") ∧
    (findSummary (updateData { message := [c8old], summary := [] } [c6sum] [])
      c6sum.id = some c6sum) ∧
    (findSummary (updateData { message := [c8old], summary := [] } [c6sum] [])
      "other" = findSummary { message := [c8old], summary := [] } "other") := by
  obtain ⟨h1, h2, h3, h4⟩ := updateData_upserts
    { message := [c8old], summary := [] } c8new c6sum
  exact ⟨h1, h2 "other" (by decide), h3, h4 "other" (by decide)⟩

theorem import_message_list (parseDate : String → Int) (st : Store)
    (d : ImportedData)
    (hmid : (d.message.map (fun m => m.id)).Nodup) :
    (importDataToIndexedDB parseDate st d).message =
      (convertImportedData parseDate d).1 := by
  show ((convertImportedData parseDate d).1.foldl putMessage []) = _
  rw [foldl_putMessage_disjoint _ [] ?_]
  · rfl
  · simp only [List.map_nil, List.nil_append]
    have hids : (convertImportedData parseDate d).1.map (fun x => x.id) =
        d.message.map (fun m => m.id) := by
      unfold convertImportedData
      rw [List.map_map]
      exact List.map_congr_left (fun a _ => rfl)
    rw [hids]
    exact hmid

theorem import_summary_list (parseDate : String → Int) (st : Store)
    (d : ImportedData)
    (hsid : (d.summary.map (fun s => s.id)).Nodup) :
    (importDataToIndexedDB parseDate st d).summary =
      (convertImportedData parseDate d).2 := by
  show ((convertImportedData parseDate d).2.foldl putSummary []) = _
  rw [foldl_putSummary_disjoint _ [] ?_]
  · rfl
  · simp only [List.map_nil, List.nil_append]
    have hids : (convertImportedData parseDate d).2.map (fun x => x.id) =
        d.summary.map (fun s => s.id) := by
      unfold convertImportedData
      rw [List.map_map]
      exact List.map_congr_left (fun a _ => rfl)
    rw [hids]
    exact hsid

/-- C9: for a well-formed document (version `"1"`, unique ids per
collection, timestamps on which the platform ISO print/parse pair is the
identity, and no parent reference equal to the literal sentinel string),
exporting after importing preserves the version and every message and
summary record field-for-field (as a permutation of each collection),
with nullable parents serialized as explicit `none` — never the internal
`"NULL"` sentinel. -/
theorem import_export_roundtrip (parseDate : String → Int)
    (printDate : Int → String) (st : Store) (d : ImportedData)
    (hv : d.version = "1")
    (hmid : (d.message.map (fun m => m.id)).Nodup)
    (hsid : (d.summary.map (fun s => s.id)).Nodup)
    (hmt : ∀ m ∈ d.message, printDate (parseDate m.created_at) = m.created_at)
    (hst : ∀ s ∈ d.summary, printDate (parseDate s.date_from) = s.date_from ∧
      printDate (parseDate s.date_to) = s.date_to)
    (hmp : ∀ m ∈ d.message, m.summary_id ≠ some "NULL")
    (hsp : ∀ s ∈ d.summary, s.parent_id ≠ some "NULL") :
    (exportDataFromIndexedDB printDate
        (importDataToIndexedDB parseDate st d)).version = d.version ∧
    (exportDataFromIndexedDB printDate
        (importDataToIndexedDB parseDate st d)).message.Perm d.message ∧
    (exportDataFromIndexedDB printDate
        (importDataToIndexedDB parseDate st d)).summary.Perm d.summary ∧
    (∀ m ∈ (exportDataFromIndexedDB printDate
        (importDataToIndexedDB parseDate st d)).message,
      m.summary_id ≠ some "NULL") ∧
    (∀ s ∈ (exportDataFromIndexedDB printDate
        (importDataToIndexedDB parseDate st d)).summary,
      s.parent_id ≠ some "NULL") := by
  have hm : (exportDataFromIndexedDB printDate
      (importDataToIndexedDB parseDate st d)).message = d.message := by
    show ((importDataToIndexedDB parseDate st d).message.map _) = d.message
    rw [import_message_list parseDate st d hmid]
    unfold convertImportedData
    dsimp only
    rw [List.map_map]
    refine (List.map_congr_left ?_).trans (List.map_id d.message)
    intro a ha
    obtain ⟨aid, acat, auc, aac, atc, asid⟩ := a
    cases asid with
    | none => simp [Function.comp, hmt _ ha]
    | some v =>
      have hv' : v ≠ "NULL" := by
        have := hmp _ ha
        simpa using this
      simp [Function.comp, hmt _ ha, hv']
  have hs : (exportDataFromIndexedDB printDate
      (importDataToIndexedDB parseDate st d)).summary = d.summary := by
    show ((importDataToIndexedDB parseDate st d).summary.map _) = d.summary
    rw [import_summary_list parseDate st d hsid]
    unfold convertImportedData
    dsimp only
    rw [List.map_map]
    refine (List.map_congr_left ?_).trans (List.map_id d.summary)
    intro a ha
    obtain ⟨aid, adf, adt, ac, al, atc, apid⟩ := a
    cases apid with
    | none => simp [Function.comp, (hst _ ha).1, (hst _ ha).2]
    | some v =>
      have hv' : v ≠ "NULL" := by
        have := hsp _ ha
        simpa using this
      simp [Function.comp, (hst _ ha).1, (hst _ ha).2, hv']
  refine ⟨by rw [hv]; rfl, hm ▸ List.Perm.refl _, hs ▸ List.Perm.refl _, ?_, ?_⟩
  · rw [hm]; exact hmp
  · rw [hs]; exact hsp

/-- C10: `importDataToIndexedDB` clears both collections before
inserting: the resulting store holds exactly the converted records of
the document, is independent of the prior store contents, and any id not
named by the document — every pre-existing record included — is absent
after import. -/
theorem importDataToIndexedDB_clears (parseDate : String → Int) (st : Store)
    (d : ImportedData)
    (hmid : (d.message.map (fun m => m.id)).Nodup)
    (hsid : (d.summary.map (fun s => s.id)).Nodup) :
    (importDataToIndexedDB parseDate st d).message =
      (convertImportedData parseDate d).1 ∧
    (importDataToIndexedDB parseDate st d).summary =
      (convertImportedData parseDate d).2 ∧
    importDataToIndexedDB parseDate st d =
      importDataToIndexedDB parseDate { message := [], summary := [] } d ∧
    (∀ i, (∀ m ∈ d.message, (m.id == i) = false) →
      findMessage (importDataToIndexedDB parseDate st d) i = none) ∧
    (∀ i, (∀ s ∈ d.summary, (s.id == i) = false) →
      findSummary (importDataToIndexedDB parseDate st d) i = none) := by
  refine ⟨import_message_list parseDate st d hmid,
    import_summary_list parseDate st d hsid, rfl, ?_, ?_⟩
  · intro i h
    show ((convertImportedData parseDate d).1.foldl putMessage []).find? _ = none
    rw [foldl_putMessage_not_mem _ [] i ?_]
    · rfl
    · intro x hx
      obtain ⟨a, ha, rfl⟩ := List.mem_map.mp hx
      exact h a ha
  · intro i h
    show ((convertImportedData parseDate d).2.foldl putSummary []).find? _ = none
    rw [foldl_putSummary_not_mem _ [] i ?_]
    · rfl
    · intro x hx
      obtain ⟨a, ha, rfl⟩ := List.mem_map.mp hx
      exact h a ha

def c9pm : String → Int := fun s => if s = "t1" then 1 else 0

def c9pr : Int → String := fun n => if n = 1 then "t1" else "t0"

def c9im : ImportedMessage :=
  { id := "a"
    created_at := "t0"
    user_content := "u"
    assistant_content := "v"
    tokens_count := 3
    summary_id := none }

def c9is : ImportedSummary :=
  { id := "b"
    date_from := "t0"
    date_to := "t1"
    content := "c"
    level := 1
    tokens_count := 2
    parent_id := none }

def c9doc : ImportedData :=
  { version := "1"
    message := [c9im]
    summary := [c9is] }

/-- Witness for C9 at a concrete two-record document. -/
theorem import_export_roundtrip_witness :
    (exportDataFromIndexedDB c9pr
        (importDataToIndexedDB c9pm { message := [], summary := [] }
          c9doc)).version = c9doc.version ∧
    (exportDataFromIndexedDB c9pr
        (importDataToIndexedDB c9pm { message := [], summary := [] }
          c9doc)).message.Perm c9doc.message ∧
    (exportDataFromIndexedDB c9pr
        (importDataToIndexedDB c9pm { message := [], summary := [] }
          c9doc)).summary.Perm c9doc.summary ∧
    (∀ m ∈ (exportDataFromIndexedDB c9pr
        (importDataToIndexedDB c9pm { message := [], summary := [] }
          c9doc)).message, m.summary_id ≠ some "NULL") ∧
    (∀ s ∈ (exportDataFromIndexedDB c9pr
        (importDataToIndexedDB c9pm { message := [], summary := [] }
          c9doc)).summary, s.parent_id ≠ some "NULL") :=
  import_export_roundtrip c9pm c9pr { message := [], summary := [] } c9doc
    rfl (by decide) (by decide) (by decide) (by decide) (by decide) (by decide)

/-- Witness for C10: the pre-existing record `c8old` is gone after
import. -/
theorem importDataToIndexedDB_clears_witness :
    (importDataToIndexedDB c9pm { message := [c8old], summary := [] }
        c9doc).message = (convertImportedData c9pm c9doc).1 ∧
    findMessage (importDataToIndexedDB c9pm
      { message := [c8old], summary := [] } c9doc) "dup" = none := by
  obtain ⟨h1, h2, h3, h4, h5⟩ := importDataToIndexedDB_clears c9pm
    { message := [c8old], summary := [] } c9doc (by decide) (by decide)
  exact ⟨h1, h4 "dup" (by decide)⟩
